import Mathlib

/-!
Shallow embedding of `FieldDataProcessor`
(src/Python_Module_for_Data_Analysis/field_data_processor.py).

A pandas DataFrame is modelled as an ordered list of named columns, each
column a name together with its list of cell values.  Cells are either
integers (numeric columns such as `Elevation`) or strings (categorical
columns such as `Crop_type`).  The external collaborators imported from
`data_ingestion` (`create_db_engine`, `query_data`, `read_from_web_CSV`)
are opaque functions; they are passed in as an environment of oracles.
-/

/-- A single cell of a DataFrame: an integer or a string. -/
inductive Cell where
  | int (i : Int)
  | str (s : String)
deriving DecidableEq, Repr

/-- A DataFrame: an ordered list of columns, each a name with its values. -/
abbrev DF : Type := List (String × List Cell)

/-- The list of column labels, in order (`df.columns`). -/
def colNames (df : DF) : List String := df.map (fun c => c.1)

/-- Reading `df[name]`: the values of the first column labelled `name`, if any. -/
def getCol (df : DF) (name : String) : Option (List Cell) :=
  (df.find? (fun c => c.1 = name)).map (fun c => c.2)

/-- Assignment `df[name] = vals`: replace the first column labelled `name`;
append a new column when no column has that label. -/
def setCol (df : DF) (name : String) (vals : List Cell) : DF :=
  match df with
  | [] => [(name, vals)]
  | c :: rest =>
    if c.1 = name then (name, vals) :: rest
    else c :: setCol rest name vals

/-- Relabelling `df.rename(columns=d)` relabels every column by `d.get(label, label)`;
values and order are untouched, missing labels are ignored
(pandas default `errors` is to ignore). -/
def renameCols (f : String → String) (df : DF) : DF :=
  df.map (fun c => (f c.1, c.2))

/-- The base temporary marker used by `rename_columns`. -/
def base_temp : String := "__temp_name_for_swap__"

/-- The `while temp_name in self.df.columns: temp_name += "_"` loop,
with explicit fuel. -/
def findTemp (cols : List String) : Nat → String → String
  | 0, t => t
  | n + 1, t => if t ∈ cols then findTemp cols n (t ++ "_") else t

/-- The temporary label produced by the loop; fuel `cols.length + 1`
always suffices (proved below). -/
def temp_name (cols : List String) : String :=
  findTemp cols (cols.length + 1) base_temp

/-- The first rename dict `{column1: temp_name, column2: column1}` as the
function `d.get(label, label)`.  When `column1 = column2` the later dict
entry wins, which the `c = c2` test placed first reproduces. -/
def renameMap1 (c1 c2 temp label : String) : String :=
  if label = c2 then c1 else if label = c1 then temp else label

/-- The second rename dict `{temp_name: column2}` as a function. -/
def renameMap2 (c2 temp label : String) : String :=
  if label = temp then c2 else label

/-- The `rename_columns` body on the DataFrame itself: `column1`/`column2` are the
first key and first value of the configured `columns_to_rename` mapping.
Generates a fresh temporary label, renames `column1 → temp` and
`column2 → column1` in one step, then `temp → column2`. -/
def rename_columns (c1 c2 : String) (df : DF) : DF :=
  let temp := temp_name (colNames df)
  let df1 := renameCols (renameMap1 c1 c2 temp) df
  renameCols (renameMap2 c2 temp) df1

/-- Pandas `Series.abs()` for the designated numeric column: absolute value of
every integer cell; a non-numeric cell makes pandas raise, modelled as
`none`. -/
def seriesAbs : List Cell → Option (List Cell)
  | [] => some []
  | Cell.int i :: rest => (seriesAbs rest).map (fun r => Cell.int |i| :: r)
  | Cell.str _ :: _ => none

/-- The lambda `self.values_to_rename.get(crop, crop)`: replace a string cell that is
a key of the mapping by its image, pass every other cell through. -/
def cellRename (m : List (String × String)) (c : Cell) : Cell :=
  match c with
  | Cell.int i => Cell.int i
  | Cell.str s =>
    match m.lookup s with
    | some v => Cell.str v
    | none => Cell.str s

/-- The `apply_corrections(column_name, abs_column)` body on the DataFrame:
`df[abs_column] = df[abs_column].abs()` then
`df[column_name] = df[column_name].apply(lambda crop: m.get(crop, crop))`.
Reading a missing column raises a KeyError, modelled as `Except.error`.
Each assignment to `self.df` commits as it executes, so an error carries
the table as already mutated at the point of the raise: in particular the
missing-categorical-column KeyError is raised only after the numeric
column has been replaced by its absolute values. -/
def apply_corrections (m : List (String × String))
    (column_name abs_column : String) (df : DF) : Except (String × DF) DF :=
  match getCol df abs_column with
  | none => Except.error ("KeyError", df)
  | some vals =>
    match seriesAbs vals with
    | none => Except.error ("TypeError", df)
    | some absVals =>
      let df1 := setCol df abs_column absVals
      match getCol df1 column_name with
      | none => Except.error ("KeyError", df1)
      | some cropVals =>
        Except.ok (setCol df1 column_name (cropVals.map (cellRename m)))

/-- Alias for the DataFrame-level `rename_columns`, usable inside the
`FieldDataProcessor` namespace where the method shadows the name. -/
def renameColumnsDF (c1 c2 : String) (df : DF) : DF :=
  rename_columns c1 c2 df

/-- Alias for the DataFrame-level `apply_corrections`, usable inside the
`FieldDataProcessor` namespace where the method shadows the name. -/
def applyCorrectionsDF (m : List (String × String))
    (column_name abs_column : String) (df : DF) : Except (String × DF) DF :=
  apply_corrections m column_name abs_column df

/-- Opaque database-engine handle produced by `create_db_engine`. -/
abbrev Engine : Type := Nat

/-- Errors raised by the external collaborators (connection, query,
resource-fetch). -/
abbrev Err : Type := String

/-- The external collaborators imported from `data_ingestion`, treated as
opaque oracles: `create_db_engine`, `query_data`, `read_from_web_CSV`. -/
structure Env where
  create_db_engine : String → Except Err Engine
  query_data : Engine → String → Except Err DF
  read_from_web_CSV : String → Except Err DF

/-- The instance state of a `FieldDataProcessor`: the five configuration
fields set by `__init__`, the logger, and the mutable `df` and `engine`
slots (both `None` right after construction). -/
structure State where
  db_path : String
  sql_query : String
  columns_to_rename : String × String
  values_to_rename : List (String × String)
  weather_map_data : String
  logger : Nat
  df : Option DF
  engine : Option Engine
deriving DecidableEq

namespace FieldDataProcessor

/-- Method `ingest_sql_data`: `self.engine = create_db_engine(self.db_path)`;
`self.df = query_data(self.engine, self.sql_query)`.  An exception leaves
the assignments that already happened in place and propagates. -/
def ingest_sql_data (env : Env) (s : State) : State × Option Err :=
  match env.create_db_engine s.db_path with
  | Except.error e => (s, some e)
  | Except.ok eng =>
    let s1 : State := { s with engine := some eng }
    match env.query_data eng s.sql_query with
    | Except.error e => (s1, some e)
    | Except.ok d => ({ s1 with df := some d }, none)

/-- The `rename_columns` method: reads the configured pair and swaps the
two labels on `self.df`.  Calling it before ingestion (`self.df` still
`None`) raises, modelled as an `AttributeError`. -/
def rename_columns (s : State) : State × Option Err :=
  match s.df with
  | none => (s, some "AttributeError")
  | some d =>
    ({ s with df := some (renameColumnsDF s.columns_to_rename.1 s.columns_to_rename.2 d) },
      none)

/-- The `apply_corrections` method; its Python default arguments are
`column_name='Crop_type'` and `abs_column='Elevation'`, which `process`
passes explicitly below.  On an error the instance keeps the table as
mutated up to the raise (the in-place assignments commit as they
execute). -/
def apply_corrections (s : State)
    (column_name abs_column : String) :
    State × Option Err :=
  match s.df with
  | none => (s, some "AttributeError")
  | some d =>
    match applyCorrectionsDF s.values_to_rename column_name abs_column d with
    | Except.error (e, d1) => ({ s with df := some d1 }, some e)
    | Except.ok d1 => ({ s with df := some d1 }, none)

/-- Method `weather_station_mapping`: `df = read_from_web_CSV(self.weather_map_data);
return df`.  The fetched table is only returned; `self` is not written. -/
def weather_station_mapping (env : Env) (s : State) :
    State × Except Err DF :=
  (s, env.read_from_web_CSV s.weather_map_data)

/-- Method `process`: `self.ingest_sql_data(); self.rename_columns();
self.apply_corrections()` in that order; the first raising step aborts
the rest and its error propagates. -/
def process (env : Env) (s : State) : State × Option Err :=
  match ingest_sql_data env s with
  | (s1, some e) => (s1, some e)
  | (s1, none) =>
    match rename_columns s1 with
    | (s2, some e) => (s2, some e)
    | (s2, none) => apply_corrections s2 "Crop_type" "Elevation"

end FieldDataProcessor

/-! ### Freshness and termination of the temporary-label loop -/

/-- Number of column labels at least as long as `t`; the loop's measure. -/
def tallCount (cols : List String) (t : String) : Nat :=
  cols.countP (fun c => decide (t.length ≤ c.length))

lemma underscore_len : "_".length = 1 := rfl

lemma len_append_underscore (t : String) : (t ++ "_").length = t.length + 1 := by
  rw [String.length_append, underscore_len]

lemma tallCount_append_lt (cols : List String) (t : String) (ht : t ∈ cols) :
    tallCount cols (t ++ "_") < tallCount cols t := by
  have hlen := len_append_underscore t
  induction cols with
  | nil => cases ht
  | cons a rest ih =>
    unfold tallCount at ih ⊢
    rw [List.countP_cons, List.countP_cons]
    simp only [decide_eq_true_eq]
    have hmono : rest.countP (fun c => decide ((t ++ "_").length ≤ c.length)) ≤
        rest.countP (fun c => decide (t.length ≤ c.length)) := by
      apply List.countP_mono_left
      intro x hx hpx
      simp only [decide_eq_true_eq] at hpx ⊢
      omega
    rcases List.mem_cons.mp ht with rfl | h1
    · split_ifs with hA hB
      · rw [hlen] at hA
        omega
      · omega
      · rw [hlen] at hA
        omega
      · omega
    · have hlt := ih h1
      split_ifs with hA hB
      · omega
      · rw [hlen] at hA
        omega
      · omega
      · omega

lemma findTemp_fresh (cols : List String) :
    ∀ (fuel : Nat) (t : String), tallCount cols t < fuel →
      findTemp cols fuel t ∉ cols := by
  intro fuel
  induction fuel with
  | zero => intro t h; omega
  | succ n ih =>
    intro t h
    unfold findTemp
    by_cases hmem : t ∈ cols
    · rw [if_pos hmem]
      exact ih (t ++ "_") (by have := tallCount_append_lt cols t hmem; omega)
    · rw [if_neg hmem]
      exact hmem

lemma findTemp_stable (cols : List String) :
    ∀ (f1 f2 : Nat) (t : String), tallCount cols t < f1 → tallCount cols t < f2 →
      findTemp cols f1 t = findTemp cols f2 t := by
  intro f1
  induction f1 with
  | zero => intro f2 t h1 h2; omega
  | succ n ih =>
    intro f2 t h1 h2
    cases f2 with
    | zero => omega
    | succ m =>
      unfold findTemp
      by_cases hmem : t ∈ cols
      · rw [if_pos hmem, if_pos hmem]
        have := tallCount_append_lt cols t hmem
        exact ih m (t ++ "_") (by omega) (by omega)
      · rw [if_neg hmem, if_neg hmem]

lemma tallCount_le (cols : List String) (t : String) :
    tallCount cols t ≤ cols.length :=
  List.countP_le_length _

/-- The label the loop settles on is never an existing column name. -/
lemma temp_name_not_mem (cols : List String) : temp_name cols ∉ cols :=
  findTemp_fresh cols (cols.length + 1) base_temp
    (by have := tallCount_le cols base_temp; omega)

/-- C4: For every table with any finite set of column names — including
tables already containing the base temporary marker
`__temp_name_for_swap__` or underscore-extended variants of it — the
temporary-label loop of `rename_columns` terminates (any fuel of at least
`cols.length + 1` returns the same label, so the loop has already exited)
and the label it produces differs from every existing column name. -/
theorem temp_label_fresh_and_stable (cols : List String) :
    temp_name cols ∉ cols ∧
    ∀ fuel : Nat, cols.length + 1 ≤ fuel →
      findTemp cols fuel base_temp = temp_name cols := by
  have hle := tallCount_le cols base_temp
  constructor
  · exact findTemp_fresh cols (cols.length + 1) base_temp (by omega)
  · intro fuel hf
    exact findTemp_stable cols fuel (cols.length + 1) base_temp (by omega) (by omega)

/-- Witness for C4 on a concrete table that already holds the base marker
and an underscore-extended variant. -/
theorem temp_label_fresh_and_stable_witness :
    temp_name ["__temp_name_for_swap__", "__temp_name_for_swap___", "Elevation"]
      ∉ ["__temp_name_for_swap__", "__temp_name_for_swap___", "Elevation"] ∧
    findTemp ["__temp_name_for_swap__", "__temp_name_for_swap___", "Elevation"]
        9 base_temp
      = temp_name ["__temp_name_for_swap__", "__temp_name_for_swap___", "Elevation"] :=
  ⟨(temp_label_fresh_and_stable _).1,
    (temp_label_fresh_and_stable _).2 9 (by decide)⟩

/-! ### The label swap performed by `rename_columns` -/

/-- Net effect of the two renames on a label of the original table:
the transposition of `c1` and `c2`. -/
def swapLabel (c1 c2 label : String) : String :=
  if label = c2 then c1 else if label = c1 then c2 else label

lemma swapLabel_involutive (c1 c2 n : String) :
    swapLabel c1 c2 (swapLabel c1 c2 n) = n := by
  unfold swapLabel
  split_ifs <;> simp_all

lemma renameMaps_eq_swapLabel (c1 c2 temp : String) (cols : List String)
    (htemp : temp ∉ cols) (hc1 : c1 ∈ cols) (n : String) (hn : n ∈ cols) :
    renameMap2 c2 temp (renameMap1 c1 c2 temp n) = swapLabel c1 c2 n := by
  have hn_temp : n ≠ temp := fun h => htemp (h ▸ hn)
  have hc1_temp : c1 ≠ temp := fun h => htemp (h ▸ hc1)
  unfold renameMap1 renameMap2 swapLabel
  split_ifs <;> simp_all

lemma rename_columns_eq_map (c1 c2 : String) (df : DF) :
    rename_columns c1 c2 df =
      df.map (fun c =>
        (renameMap2 c2 (temp_name (colNames df))
          (renameMap1 c1 c2 (temp_name (colNames df)) c.1), c.2)) := by
  unfold rename_columns renameCols
  rw [List.map_map]
  rfl

lemma getCol_renameCols (f : String → String) (df : DF) (a : String)
    (hinj : ∀ n ∈ colNames df, f n = f a → n = a) :
    getCol (renameCols f df) (f a) = getCol df a := by
  induction df with
  | nil => rfl
  | cons c rest ih =>
    by_cases hc : c.1 = a
    · simp [getCol, renameCols, List.find?_cons, hc]
    · have hfc : f c.1 ≠ f a := by
        intro h
        exact hc (hinj c.1 (by simp [colNames]) h)
      have hcols : colNames (c :: rest) = c.1 :: colNames rest := rfl
      have htail := ih (fun n hn h =>
        hinj n (by rw [hcols]; exact List.mem_cons_of_mem _ hn) h)
      simpa [getCol, renameCols, List.find?_cons, hc, hfc] using htail

/-- C1: For every table containing both columns of the configured rename
pair (A = first key, B = first value of `columns_to_rename`), after
`rename_columns` the column named B holds A's original values and the
column named A holds B's original values — a true swap, not an
overwrite. -/
theorem rename_columns_swaps (c1 c2 : String) (df : DF)
    (hc1 : c1 ∈ colNames df) (hc2 : c2 ∈ colNames df) :
    getCol (rename_columns c1 c2 df) c2 = getCol df c1 ∧
    getCol (rename_columns c1 c2 df) c1 = getCol df c2 := by
  have htemp := temp_name_not_mem (colNames df)
  have heq : rename_columns c1 c2 df =
      renameCols (fun n =>
        renameMap2 c2 (temp_name (colNames df))
          (renameMap1 c1 c2 (temp_name (colNames df)) n)) df :=
    rename_columns_eq_map c1 c2 df
  have hfswap : ∀ n ∈ colNames df,
      renameMap2 c2 (temp_name (colNames df))
        (renameMap1 c1 c2 (temp_name (colNames df)) n) = swapLabel c1 c2 n :=
    fun n hn =>
      renameMaps_eq_swapLabel c1 c2 (temp_name (colNames df)) (colNames df)
        htemp hc1 n hn
  have hfc1 : renameMap2 c2 (temp_name (colNames df))
      (renameMap1 c1 c2 (temp_name (colNames df)) c1) = c2 := by
    rw [hfswap c1 hc1]
    unfold swapLabel
    split_ifs <;> simp_all
  have hfc2 : renameMap2 c2 (temp_name (colNames df))
      (renameMap1 c1 c2 (temp_name (colNames df)) c2) = c1 := by
    rw [hfswap c2 hc2]
    simp [swapLabel]
  have hinj1 : ∀ n ∈ colNames df,
      renameMap2 c2 (temp_name (colNames df))
          (renameMap1 c1 c2 (temp_name (colNames df)) n) =
        renameMap2 c2 (temp_name (colNames df))
          (renameMap1 c1 c2 (temp_name (colNames df)) c1) → n = c1 := by
    intro n hn h
    rw [hfswap n hn, hfswap c1 hc1] at h
    have h2 := congrArg (swapLabel c1 c2) h
    rwa [swapLabel_involutive, swapLabel_involutive] at h2
  have hinj2 : ∀ n ∈ colNames df,
      renameMap2 c2 (temp_name (colNames df))
          (renameMap1 c1 c2 (temp_name (colNames df)) n) =
        renameMap2 c2 (temp_name (colNames df))
          (renameMap1 c1 c2 (temp_name (colNames df)) c2) → n = c2 := by
    intro n hn h
    rw [hfswap n hn, hfswap c2 hc2] at h
    have h2 := congrArg (swapLabel c1 c2) h
    rwa [swapLabel_involutive, swapLabel_involutive] at h2
  constructor
  · have h := getCol_renameCols _ df c1 hinj1
    rw [hfc1] at h
    rw [heq]
    exact h
  · have h := getCol_renameCols _ df c2 hinj2
    rw [hfc2] at h
    rw [heq]
    exact h

/-- Witness for C1 on a concrete two-column table. -/
theorem rename_columns_swaps_witness :
    getCol (rename_columns "Field_A" "Field_B"
        [("Field_A", [Cell.int 1, Cell.int 2]), ("Field_B", [Cell.str "x"])])
        "Field_B"
      = getCol [("Field_A", [Cell.int 1, Cell.int 2]), ("Field_B", [Cell.str "x"])]
        "Field_A" ∧
    getCol (rename_columns "Field_A" "Field_B"
        [("Field_A", [Cell.int 1, Cell.int 2]), ("Field_B", [Cell.str "x"])])
        "Field_A"
      = getCol [("Field_A", [Cell.int 1, Cell.int 2]), ("Field_B", [Cell.str "x"])]
        "Field_B" :=
  rename_columns_swaps "Field_A" "Field_B"
    [("Field_A", [Cell.int 1, Cell.int 2]), ("Field_B", [Cell.str "x"])]
    (by decide) (by decide)

/-- Row count of a DataFrame: the length of its first column (0 when the
table has no columns). -/
def numRows (df : DF) : Nat :=
  match df with
  | [] => 0
  | c :: _ => c.2.length

/-- C10: `rename_columns` changes column labels only: the number of
columns and the row count are unchanged, and positionally every column
keeps its values, with its name also kept whenever it is neither `c1` nor
`c2` of the configured pair. -/
theorem rename_columns_frame (c1 c2 : String) (df : DF) :
    (rename_columns c1 c2 df).length = df.length ∧
    numRows (rename_columns c1 c2 df) = numRows df ∧
    List.Forall₂ (fun o n : String × List Cell =>
        o.2 = n.2 ∧ (o.1 ≠ c1 → o.1 ≠ c2 → n.1 = o.1))
      df (rename_columns c1 c2 df) := by
  have htemp := temp_name_not_mem (colNames df)
  have heq := rename_columns_eq_map c1 c2 df
  refine ⟨?_, ?_, ?_⟩
  · rw [heq, List.length_map]
  · rw [heq]
    cases df with
    | nil => rfl
    | cons c rest => rfl
  · rw [heq]
    rw [List.forall₂_map_right_iff]
    rw [List.forall₂_same]
    intro x hx
    refine ⟨rfl, ?_⟩
    intro h1 h2
    have hxmem : x.1 ∈ colNames df := List.mem_map_of_mem _ hx
    have hxtemp : x.1 ≠ temp_name (colNames df) := fun h => htemp (h ▸ hxmem)
    unfold renameMap1 renameMap2
    rw [if_neg h2, if_neg h1, if_neg hxtemp]

/-- Witness for C10 on a concrete three-column table. -/
theorem rename_columns_frame_witness :
    (rename_columns "A" "B"
        [("A", [Cell.int 1]), ("B", [Cell.int 2]), ("C", [Cell.int 3])]).length
      = [("A", [Cell.int 1]), ("B", [Cell.int 2]), ("C", [Cell.int 3])].length ∧
    numRows (rename_columns "A" "B"
        [("A", [Cell.int 1]), ("B", [Cell.int 2]), ("C", [Cell.int 3])])
      = numRows [("A", [Cell.int 1]), ("B", [Cell.int 2]), ("C", [Cell.int 3])] ∧
    List.Forall₂ (fun o n : String × List Cell =>
        o.2 = n.2 ∧ (o.1 ≠ "A" → o.1 ≠ "B" → n.1 = o.1))
      [("A", [Cell.int 1]), ("B", [Cell.int 2]), ("C", [Cell.int 3])]
      (rename_columns "A" "B"
        [("A", [Cell.int 1]), ("B", [Cell.int 2]), ("C", [Cell.int 3])]) :=
  rename_columns_frame "A" "B"
    [("A", [Cell.int 1]), ("B", [Cell.int 2]), ("C", [Cell.int 3])]

/-- C3: On a table with columns `[Crop_type, Elevation, Field_A]` and
rename pair `(Field_A, Field_B)` where `Field_B` does not pre-exist,
`rename_columns` completes and performs a straight rename: the column is
now labelled `Field_B` with `Field_A`'s original values intact. -/
theorem rename_columns_straight_rename (v1 v2 v3 : List Cell) :
    rename_columns "Field_A" "Field_B"
        [("Crop_type", v1), ("Elevation", v2), ("Field_A", v3)]
      = [("Crop_type", v1), ("Elevation", v2), ("Field_B", v3)] := rfl

/-- C2 evidence: with rename pair `(Field_A, Field_B)` and a table where
`Field_A` is absent but `Field_B` is present, `rename_columns` completes
with no error and silently renames `Field_B` to `Field_A` — pandas
`DataFrame.rename` ignores missing labels by default, so no missing-key
error is ever raised, contrary to the method's own docstring. -/
theorem rename_columns_absent_no_error :
    FieldDataProcessor.rename_columns
        { db_path := "p", sql_query := "q",
          columns_to_rename := ("Field_A", "Field_B"),
          values_to_rename := [], weather_map_data := "u", logger := 0,
          df := some [("Field_B", [Cell.int 7]), ("Elevation", [Cell.int 1])],
          engine := none }
      = ({ db_path := "p", sql_query := "q",
           columns_to_rename := ("Field_A", "Field_B"),
           values_to_rename := [], weather_map_data := "u", logger := 0,
           df := some [("Field_A", [Cell.int 7]), ("Elevation", [Cell.int 1])],
           engine := none }, none) := rfl

/-! ### Reading and writing single columns -/

lemma getCol_setCol_self (df : DF) (name : String) (vals : List Cell) :
    getCol (setCol df name vals) name = some vals := by
  induction df with
  | nil => simp [setCol, getCol]
  | cons c rest ih =>
    unfold setCol
    by_cases hc : c.1 = name
    · rw [if_pos hc]
      simp [getCol]
    · rw [if_neg hc]
      simpa [getCol, List.find?_cons, hc] using ih

lemma getCol_setCol_other (df : DF) (name other : String) (vals : List Cell)
    (hne : other ≠ name) :
    getCol (setCol df name vals) other = getCol df other := by
  have hne2 : ¬ name = other := fun h => hne (Eq.symm h)
  induction df with
  | nil =>
    simp [setCol, getCol, hne2]
  | cons c rest ih =>
    unfold setCol
    by_cases hc : c.1 = name
    · rw [if_pos hc]
      have hco : ¬ c.1 = other := fun h => hne2 (hc.symm.trans h)
      simp [getCol, List.find?_cons, hne2, hco]
    · rw [if_neg hc]
      by_cases hco : c.1 = other
      · simp [getCol, List.find?_cons, hco]
      · simpa [getCol, List.find?_cons, hco] using ih

/-- The function `seriesAbs` succeeds exactly on all-integer columns, and relates each
output cell to its input cell: the output is `|i|` for input `int i`. -/
lemma seriesAbs_forall (vals absVals : List Cell)
    (h : seriesAbs vals = some absVals) :
    List.Forall₂ (fun o n => ∃ i j : Int,
        o = Cell.int i ∧ n = Cell.int j ∧ 0 ≤ j ∧ j.natAbs = i.natAbs)
      vals absVals := by
  induction vals generalizing absVals with
  | nil =>
    simp only [seriesAbs, Option.some.injEq] at h
    subst h
    exact List.Forall₂.nil
  | cons c rest ih =>
    cases c with
    | str s => simp [seriesAbs] at h
    | int i =>
      simp only [seriesAbs] at h
      cases habs : seriesAbs rest with
      | none =>
        rw [habs] at h
        simp at h
      | some r =>
        rw [habs] at h
        have h2 : Cell.int |i| :: r = absVals := by simpa using h
        subst h2
        exact List.Forall₂.cons
          ⟨i, |i|, rfl, rfl, abs_nonneg i, Int.natAbs_abs i⟩
          (ih r habs)

lemma seriesAbs_all_int (vals absVals : List Cell)
    (h : seriesAbs vals = some absVals) :
    ∀ c ∈ absVals, ∃ j : Int, c = Cell.int j := by
  induction vals generalizing absVals with
  | nil =>
    simp only [seriesAbs, Option.some.injEq] at h
    subst h
    intro c hc
    cases hc
  | cons c rest ih =>
    cases c with
    | str s => simp [seriesAbs] at h
    | int i =>
      simp only [seriesAbs] at h
      cases habs : seriesAbs rest with
      | none =>
        rw [habs] at h
        simp at h
      | some r =>
        rw [habs] at h
        have h2 : Cell.int |i| :: r = absVals := by simpa using h
        subst h2
        intro c hc
        rcases List.mem_cons.mp hc with rfl | hc2
        · exact ⟨|i|, rfl⟩
        · exact ih r habs c hc2

lemma map_cellRename_all_int (m : List (String × String)) (vals : List Cell)
    (h : ∀ c ∈ vals, ∃ j : Int, c = Cell.int j) :
    vals.map (cellRename m) = vals := by
  induction vals with
  | nil => rfl
  | cons c rest ih =>
    obtain ⟨j, hj⟩ := h c (List.mem_cons_self c rest)
    subst hj
    simp only [List.map_cons, cellRename]
    rw [ih (fun x hx => h x (List.mem_cons_of_mem _ hx))]

lemma apply_corrections_ok_unfold (m : List (String × String))
    (cn ab : String) (df df1 : DF)
    (hok : apply_corrections m cn ab df = Except.ok df1) :
    ∃ vals absVals cropVals,
      getCol df ab = some vals ∧ seriesAbs vals = some absVals ∧
      getCol (setCol df ab absVals) cn = some cropVals ∧
      df1 = setCol (setCol df ab absVals) cn (cropVals.map (cellRename m)) := by
  simp only [apply_corrections] at hok
  split at hok
  · simp at hok
  · rename_i vals hget
    split at hok
    · simp at hok
    · rename_i absVals habs
      split at hok
      · simp at hok
      · rename_i cropVals hcrop
        have hdf1 : setCol (setCol df ab absVals) cn (cropVals.map (cellRename m)) = df1 := by
          simpa using hok
        exact ⟨vals, absVals, cropVals, hget, habs, hcrop, hdf1.symm⟩

/-- C5: When `apply_corrections` completes on a table containing the
designated numeric column, every value in that column afterwards is a
non-negative integer equal in magnitude to that row's pre-correction
value. -/
theorem apply_corrections_abs_column (m : List (String × String))
    (cn ab : String) (df df1 : DF) (vals : List Cell)
    (hok : apply_corrections m cn ab df = Except.ok df1)
    (hget : getCol df ab = some vals) :
    ∃ vals1, getCol df1 ab = some vals1 ∧
      List.Forall₂ (fun o n => ∃ i j : Int,
          o = Cell.int i ∧ n = Cell.int j ∧ 0 ≤ j ∧ j.natAbs = i.natAbs)
        vals vals1 := by
  obtain ⟨vals0, absVals, cropVals, hget0, habs, hcrop, hdf1⟩ :=
    apply_corrections_ok_unfold m cn ab df df1 hok
  rw [hget] at hget0
  injection hget0 with hv
  subst hv
  by_cases hcnab : cn = ab
  · subst hcnab
    rw [getCol_setCol_self] at hcrop
    injection hcrop with hcv
    subst hcv
    refine ⟨absVals, ?_, seriesAbs_forall vals absVals habs⟩
    rw [hdf1, map_cellRename_all_int m absVals (seriesAbs_all_int vals absVals habs)]
    exact getCol_setCol_self _ cn absVals
  · refine ⟨absVals, ?_, seriesAbs_forall vals absVals habs⟩
    rw [hdf1,
      getCol_setCol_other _ cn ab _ (fun h => hcnab (Eq.symm h))]
    exact getCol_setCol_self df ab absVals

/-- Witness for C5 on the spec's scenario table. -/
theorem apply_corrections_abs_column_witness :
    ∃ vals1,
      getCol [("Elevation", [Cell.int 5, Cell.int 10, Cell.int 3]),
              ("Crop_type", [Cell.str "maize", Cell.str "wheat"])] "Elevation"
        = some vals1 ∧
      List.Forall₂ (fun o n => ∃ i j : Int,
          o = Cell.int i ∧ n = Cell.int j ∧ 0 ≤ j ∧ j.natAbs = i.natAbs)
        [Cell.int (-5), Cell.int 10, Cell.int (-3)] vals1 :=
  apply_corrections_abs_column [("unknown_code", "wheat")]
    "Crop_type" "Elevation"
    [("Elevation", [Cell.int (-5), Cell.int 10, Cell.int (-3)]),
     ("Crop_type", [Cell.str "maize", Cell.str "unknown_code"])]
    [("Elevation", [Cell.int 5, Cell.int 10, Cell.int 3]),
     ("Crop_type", [Cell.str "maize", Cell.str "wheat"])]
    [Cell.int (-5), Cell.int 10, Cell.int (-3)]
    (by rfl) (by rfl)

/-- C6: When `apply_corrections` completes on a table containing the
designated categorical column (distinct from the numeric one), every cell
of that column whose value is a key of the value-rename mapping ends up
holding the mapped value, and every cell whose value is not a key is
unchanged (identity passthrough). -/
theorem apply_corrections_value_lookup (m : List (String × String))
    (cn ab : String) (df df1 : DF) (crop : List Cell)
    (hok : apply_corrections m cn ab df = Except.ok df1)
    (hget : getCol df cn = some crop) (hne : cn ≠ ab) :
    ∃ crop1, getCol df1 cn = some crop1 ∧
      List.Forall₂ (fun o n =>
        match o with
        | Cell.str s =>
          match m.lookup s with
          | some v => n = Cell.str v
          | none => n = o
        | Cell.int _ => n = o) crop crop1 := by
  obtain ⟨vals, absVals, cropVals, hget0, habs, hcrop, hdf1⟩ :=
    apply_corrections_ok_unfold m cn ab df df1 hok
  rw [getCol_setCol_other df ab cn absVals hne, hget] at hcrop
  injection hcrop with hcv
  subst hcv
  refine ⟨crop.map (cellRename m), ?_, ?_⟩
  · rw [hdf1]
    exact getCol_setCol_self _ cn _
  · rw [List.forall₂_map_right_iff, List.forall₂_same]
    intro x hx
    cases x with
    | int i => rfl
    | str s =>
      cases hl : m.lookup s with
      | some v => simp [cellRename, hl]
      | none => simp [cellRename, hl]

/-- Witness for C6 on the spec's scenario table. -/
theorem apply_corrections_value_lookup_witness :
    ∃ crop1,
      getCol [("Elevation", [Cell.int 5, Cell.int 10, Cell.int 3]),
              ("Crop_type", [Cell.str "maize", Cell.str "wheat"])] "Crop_type"
        = some crop1 ∧
      List.Forall₂ (fun o n =>
        match o with
        | Cell.str s =>
          match List.lookup s [("unknown_code", "wheat")] with
          | some v => n = Cell.str v
          | none => n = o
        | Cell.int _ => n = o)
        [Cell.str "maize", Cell.str "unknown_code"] crop1 :=
  apply_corrections_value_lookup [("unknown_code", "wheat")]
    "Crop_type" "Elevation"
    [("Elevation", [Cell.int (-5), Cell.int 10, Cell.int (-3)]),
     ("Crop_type", [Cell.str "maize", Cell.str "unknown_code"])]
    [("Elevation", [Cell.int 5, Cell.int 10, Cell.int 3]),
     ("Crop_type", [Cell.str "maize", Cell.str "wheat"])]
    [Cell.str "maize", Cell.str "unknown_code"]
    (by rfl) (by rfl) (by decide)

/-- The `__init__` constructor: stores the five configuration options and
leaves `df` and `engine` empty. -/
def init (db_path sql_query : String) (columns_to_rename : String × String)
    (values_to_rename : List (String × String))
    (weather_mapping_csv : String) (logger : Nat) : State :=
  { db_path := db_path, sql_query := sql_query,
    columns_to_rename := columns_to_rename,
    values_to_rename := values_to_rename,
    weather_map_data := weather_mapping_csv,
    logger := logger, df := none, engine := none }

/-- The configuration part of the instance state: the five fields set
from `config_params` in `__init__`. -/
def configOf (s : State) :
    String × String × (String × String) × List (String × String) × String :=
  (s.db_path, s.sql_query, s.columns_to_rename, s.values_to_rename,
    s.weather_map_data)

lemma config_ingest (env : Env) (s : State) :
    configOf (FieldDataProcessor.ingest_sql_data env s).1 = configOf s := by
  cases h : env.create_db_engine s.db_path with
  | error e => simp [FieldDataProcessor.ingest_sql_data, h, configOf]
  | ok eng =>
    cases h2 : env.query_data eng s.sql_query with
    | error e => simp [FieldDataProcessor.ingest_sql_data, h, h2, configOf]
    | ok d => simp [FieldDataProcessor.ingest_sql_data, h, h2, configOf]

lemma config_rename (s : State) :
    configOf (FieldDataProcessor.rename_columns s).1 = configOf s := by
  cases hd : s.df with
  | none => simp [FieldDataProcessor.rename_columns, hd, configOf]
  | some d => simp [FieldDataProcessor.rename_columns, hd, configOf]

lemma config_corrections (s : State) (cn ab : String) :
    configOf (FieldDataProcessor.apply_corrections s cn ab).1 = configOf s := by
  cases hd : s.df with
  | none => simp [FieldDataProcessor.apply_corrections, hd, configOf]
  | some d =>
    cases h2 : applyCorrectionsDF s.values_to_rename cn ab d with
    | error e => simp [FieldDataProcessor.apply_corrections, hd, h2, configOf]
    | ok d1 => simp [FieldDataProcessor.apply_corrections, hd, h2, configOf]

lemma config_process (env : Env) (s : State) :
    configOf (FieldDataProcessor.process env s).1 = configOf s := by
  cases hi : FieldDataProcessor.ingest_sql_data env s with
  | mk s1 err =>
    have h1 : configOf s1 = configOf s := by
      have h := config_ingest env s
      rw [hi] at h
      exact h
    cases err with
    | some e =>
      simp only [FieldDataProcessor.process, hi]
      exact h1
    | none =>
      cases hr : FieldDataProcessor.rename_columns s1 with
      | mk s2 err2 =>
        have h2 : configOf s2 = configOf s1 := by
          have h := config_rename s1
          rw [hr] at h
          exact h
        cases err2 with
        | some e =>
          simp only [FieldDataProcessor.process, hi, hr]
          exact h2.trans h1
        | none =>
          simp only [FieldDataProcessor.process, hi, hr]
          exact (config_corrections s2 "Crop_type" "Elevation").trans
            (h2.trans h1)

/-- C9: The configuration is immutable: the constructor stores the five
options, and each public operation (`ingest_sql_data`, `rename_columns`,
`apply_corrections`, `weather_station_mapping`, `process`) leaves
`db_path`, `sql_query`, `columns_to_rename`, `values_to_rename` and
`weather_map_data` untouched. -/
theorem config_immutable (env : Env) (s : State)
    (cn ab db q : String) (pair : String × String)
    (vmap : List (String × String)) (csv : String) (lg : Nat) :
    configOf (init db q pair vmap csv lg) = (db, q, pair, vmap, csv) ∧
    configOf (FieldDataProcessor.ingest_sql_data env s).1 = configOf s ∧
    configOf (FieldDataProcessor.rename_columns s).1 = configOf s ∧
    configOf (FieldDataProcessor.apply_corrections s cn ab).1 = configOf s ∧
    configOf (FieldDataProcessor.weather_station_mapping env s).1 = configOf s ∧
    configOf (FieldDataProcessor.process env s).1 = configOf s :=
  ⟨rfl, config_ingest env s, config_rename s, config_corrections s cn ab,
    rfl, config_process env s⟩

/-- C8: `weather_station_mapping` mutates no instance state: every field
of the instance is unchanged and the fetched table is only returned. -/
theorem weather_station_mapping_pure (env : Env) (s : State) :
    (FieldDataProcessor.weather_station_mapping env s).1.db_path = s.db_path ∧
    (FieldDataProcessor.weather_station_mapping env s).1.sql_query = s.sql_query ∧
    (FieldDataProcessor.weather_station_mapping env s).1.columns_to_rename
      = s.columns_to_rename ∧
    (FieldDataProcessor.weather_station_mapping env s).1.values_to_rename
      = s.values_to_rename ∧
    (FieldDataProcessor.weather_station_mapping env s).1.weather_map_data
      = s.weather_map_data ∧
    (FieldDataProcessor.weather_station_mapping env s).1.df = s.df ∧
    (FieldDataProcessor.weather_station_mapping env s).1.engine = s.engine ∧
    (FieldDataProcessor.weather_station_mapping env s).1.logger = s.logger ∧
    (FieldDataProcessor.weather_station_mapping env s).2
      = env.read_from_web_CSV s.weather_map_data :=
  ⟨rfl, rfl, rfl, rfl, rfl, rfl, rfl, rfl, rfl⟩

/-- C7 (amended): `process` runs ingestion, then rename, then
corrections, in that fixed order.  If `create_db_engine` raises, the
error propagates with the state untouched and neither rename nor
correction runs; if `query_data` raises, the error propagates with only
`engine` already assigned; on successful ingestion, `process` is exactly
the correction step applied to the renamed ingested state (rename never
raises on a populated table).  Nothing is rolled back, but a failing
correction step does not leave the table exactly as the succeeded steps
produced it: every in-place assignment committed before the raise is
kept, and in particular a missing categorical column is detected only
after the numeric column has already been replaced by its absolute
values. -/
theorem process_pipeline_order (env : Env) (s : State) :
    (∀ e, env.create_db_engine s.db_path = Except.error e →
      FieldDataProcessor.process env s = (s, some e)) ∧
    (∀ eng e, env.create_db_engine s.db_path = Except.ok eng →
      env.query_data eng s.sql_query = Except.error e →
      FieldDataProcessor.process env s = ({ s with engine := some eng }, some e)) ∧
    (∀ eng d, env.create_db_engine s.db_path = Except.ok eng →
      env.query_data eng s.sql_query = Except.ok d →
      FieldDataProcessor.process env s =
        FieldDataProcessor.apply_corrections
          (FieldDataProcessor.rename_columns
            { s with engine := some eng, df := some d }).1
          "Crop_type" "Elevation") ∧
    (∀ d, s.df = some d → (FieldDataProcessor.rename_columns s).2 = none) ∧
    (∀ cn ab d e d1, s.df = some d →
      applyCorrectionsDF s.values_to_rename cn ab d = Except.error (e, d1) →
      FieldDataProcessor.apply_corrections s cn ab
        = ({ s with df := some d1 }, some e)) ∧
    (∀ cn ab d vals absVals, getCol d ab = some vals →
      seriesAbs vals = some absVals →
      getCol (setCol d ab absVals) cn = none →
      applyCorrectionsDF s.values_to_rename cn ab d
        = Except.error ("KeyError", setCol d ab absVals)) := by
  refine ⟨?_, ?_, ?_, ?_, ?_, ?_⟩
  · intro e h
    simp [FieldDataProcessor.process, FieldDataProcessor.ingest_sql_data, h]
  · intro eng e h1 h2
    simp [FieldDataProcessor.process, FieldDataProcessor.ingest_sql_data, h1, h2]
  · intro eng d h1 h2
    have hing : FieldDataProcessor.ingest_sql_data env s =
        ({ s with engine := some eng, df := some d }, none) := by
      simp [FieldDataProcessor.ingest_sql_data, h1, h2]
    have hren : FieldDataProcessor.rename_columns
        { s with engine := some eng, df := some d } =
        ((FieldDataProcessor.rename_columns
          { s with engine := some eng, df := some d }).1, none) := by
      simp [FieldDataProcessor.rename_columns]
    simp only [FieldDataProcessor.process, hing]
    rw [hren]
  · intro d hd
    simp [FieldDataProcessor.rename_columns, hd]
  · intro cn ab d e d1 hd hap
    simp [FieldDataProcessor.apply_corrections, hd, hap]
  · intro cn ab d vals absVals h1 h2 h3
    simp only [applyCorrectionsDF, apply_corrections, h1, h2, h3]

/-- Counterexample for the original C7 wording: a run in which ingestion
and rename succeed and the correction step raises a missing-key error for
the categorical column, yet the final table is not the one the succeeded
steps produced — the numeric column has already been replaced by absolute
values before the raise. -/
theorem process_no_rollback_counterexample :
    FieldDataProcessor.process
        ⟨fun _ => Except.ok 0,
          fun _ _ => Except.ok [("Elevation", [Cell.int (-5)])],
          fun _ => Except.ok []⟩
        { db_path := "p", sql_query := "q", columns_to_rename := ("A", "B"),
          values_to_rename := [], weather_map_data := "u", logger := 0,
          df := none, engine := none }
      = ({ db_path := "p", sql_query := "q", columns_to_rename := ("A", "B"),
           values_to_rename := [], weather_map_data := "u", logger := 0,
           df := some [("Elevation", [Cell.int 5])], engine := some 0 },
          some "KeyError") ∧
    (FieldDataProcessor.rename_columns
        (FieldDataProcessor.ingest_sql_data
          ⟨fun _ => Except.ok 0,
            fun _ _ => Except.ok [("Elevation", [Cell.int (-5)])],
            fun _ => Except.ok []⟩
          { db_path := "p", sql_query := "q", columns_to_rename := ("A", "B"),
            values_to_rename := [], weather_map_data := "u", logger := 0,
            df := none, engine := none }).1).1.df
      = some [("Elevation", [Cell.int (-5)])] ∧
    some [("Elevation", [Cell.int 5])]
      ≠ some [("Elevation", [Cell.int (-5)])] :=
  ⟨rfl, rfl, by decide⟩

/-- Witness for C7: a concrete environment whose engine factory raises
makes `process` propagate that error with the state untouched. -/
theorem process_pipeline_order_witness :
    FieldDataProcessor.process
        ⟨fun _ => Except.error "invalid database path",
          fun _ _ => Except.ok [], fun _ => Except.ok []⟩
        { db_path := "bad", sql_query := "q",
          columns_to_rename := ("Field_A", "Field_B"),
          values_to_rename := [], weather_map_data := "u", logger := 0,
          df := none, engine := none }
      = ({ db_path := "bad", sql_query := "q",
           columns_to_rename := ("Field_A", "Field_B"),
           values_to_rename := [], weather_map_data := "u", logger := 0,
           df := none, engine := none }, some "invalid database path") :=
  (process_pipeline_order
      ⟨fun _ => Except.error "invalid database path",
        fun _ _ => Except.ok [], fun _ => Except.ok []⟩
      { db_path := "bad", sql_query := "q",
        columns_to_rename := ("Field_A", "Field_B"),
        values_to_rename := [], weather_map_data := "u", logger := 0,
        df := none, engine := none }).1
    "invalid database path" rfl
